import Mathlib

/-!
Verification of the pubky-private-messenger specification against the
repository sources.

The repository ships the frontend (`src/main.js`, two revisions), the
README (which documents the encryption scheme and the on-storage record
format), and the backend's `Cargo.toml`.  The Rust crypto/storage core
(`src-tauri/src/messaging.rs`, `commands.rs`) is not part of the
available sources, so the codec, key agreement and reconciler are
modelled from the specification, while the contact/send/load logic is
embedded directly from `src/main.js` and the persisted record format
from the README's "Storage Format" section.
-/

namespace Pubky

/-- Byte strings (JSON byte arrays, nonces, ciphertexts, digests). -/
abbrev Bytes := List Nat

/-! ## Key agreement (spec §4.3)

Modelled from the spec: the X25519/ECDH key agreement and the
key-derivation step live in the missing Rust core
(`src-tauri/src/messaging.rs`; `x25519-dalek`, `hkdf` in `Cargo.toml`;
README "shared_secret = ECDH(sender_private_key, recipient_public_key)").
Group exponentiation is modelled as modular exponentiation over the
X25519 prime, which captures exactly the algebraic law
(g^a)^b = (g^b)^a that the spec's symmetry invariant rests on. -/

/-- The X25519 field prime 2^255 - 19. -/
def curvePrime : Nat := 2 ^ 255 - 19

/-- The X25519 base point coordinate. -/
def basePoint : Nat := 9

/-- Modelled from the spec: the public agreement key derived from a
private scalar (scalar multiplication of the base point, modelled as
modular exponentiation). -/
def agreePub (priv : Nat) : Nat := basePoint ^ priv % curvePrime

/-- Modelled from the spec: the raw ECDH shared value computed from a
private scalar and a counterpart public key. -/
def ecdh (myPriv theirPub : Nat) : Nat := theirPub ^ myPriv % curvePrime

/-- Modelled from the spec: the key-derivation step stretching the
shared value with a fixed protocol context (domain separation, §4.3). -/
def kdf (sharedSecret : Nat) (context : Nat) : Nat :=
  (sharedSecret + 1) * (2 * context + 1)

/-- Protocol-specific context constant for the conversation key. -/
def convContext : Nat := 1

/-- Modelled from the spec: `derive_conversation_key(my_private,
their_public)` — ECDH followed by the KDF (spec §4.3). -/
def derive_conversation_key (myPriv theirPub : Nat) : Nat :=
  kdf (ecdh myPriv theirPub) convContext

/-! ## Signatures and AEAD (spec §4.4)

Modelled from the spec: the Ed25519 signatures and the authenticated
encryption of the missing Rust core are modelled symbolically (a
Dolev–Yao style model): a ciphertext records under which key and nonce
it was produced, and decryption succeeds exactly for that key and
nonce; a signature records the signing key and the signed digest and
verifies exactly against the matching public key and digest. -/

/-- Modelled from the spec: the signing public key corresponding to a
signing private key (an injective map standing in for Ed25519 key
generation). -/
def sigPub (sk : Nat) : Nat := 2 * sk + 1

/-- Symbolic signature: remembers the signing key and signed digest. -/
structure Sig where
  sk : Nat
  digest : Bytes
deriving DecidableEq

/-- Modelled from the spec: signing a canonical digest with the
sender's signing private key. -/
def signDigest (sk : Nat) (d : Bytes) : Sig := ⟨sk, d⟩

/-- Modelled from the spec: signature verification against a declared
signing public key and a recomputed digest. -/
def verifySig (pk : Nat) (s : Sig) (d : Bytes) : Bool :=
  decide (sigPub s.sk = pk ∧ s.digest = d)

/-- Symbolic AEAD ciphertext: remembers key, nonce and plaintext. -/
structure Ciphertext where
  key : Nat
  nonce : Bytes
  plain : Bytes
deriving DecidableEq

/-- Modelled from the spec: AEAD encryption under a symmetric key and a
nonce. -/
def aeadEncrypt (key : Nat) (nonce : Bytes) (plain : Bytes) : Ciphertext :=
  ⟨key, nonce, plain⟩

/-- Modelled from the spec: AEAD decryption; authentication fails (and
`none` is returned) unless the key and nonce match the ones the
ciphertext was produced under. -/
def aeadDecrypt (key : Nat) (nonce : Bytes) (c : Ciphertext) : Option Bytes :=
  if c.key = key ∧ c.nonce = nonce then some c.plain else none

/-! ## Record codec (spec §4.4) -/

/-- Modelled from the spec: the sub-key for the `encrypted_sender`
field, derived from the conversation key by the analogous
domain-separated derivation (spec §4.4 step 3, §9 open question). -/
def senderSubkey (convKey : Nat) : Nat := kdf convKey 2

/-- A message record as assembled by the write path (spec §3 "Message
Record"): timestamp, the two ciphertext fields, the nonce, and the
signature over the canonical payload. -/
structure MessageRecord where
  timestamp : Nat
  encrypted_sender : Ciphertext
  encrypted_content : Ciphertext
  nonce : Bytes
  signature : Sig
deriving DecidableEq

/-- Modelled from the spec: the canonical digest of (timestamp,
encrypted_content, encrypted_sender, nonce) that is signed (spec §4.4
step 4).  Ciphertexts enter through their recorded fields; a simple
flattening into bytes is used. -/
def canonicalDigest (ts : Nat) (ec es : Ciphertext) (nonce : Bytes) : Bytes :=
  ts :: ec.key :: es.key :: (ec.nonce ++ 0 :: ec.plain ++ 0 :: es.nonce ++
    0 :: es.plain ++ 0 :: nonce)

/-- The identity of one local user: the signing private key (spec §3
"Identity"; the agreement half appears as the scalars of `agreePub`). -/
structure Identity where
  signPriv : Nat
deriving DecidableEq

/-- Modelled from the spec: `encrypt_and_sign(identity,
conversation_key, plaintext, ...)` (spec §4.4).  The fresh random nonce
and the wall-clock timestamp are explicit arguments, making the
implementation's randomness and clock explicit inputs. -/
def encrypt_and_sign (idn : Identity) (convKey : Nat) (plaintext : Bytes)
    (nonce : Bytes) (ts : Nat) : MessageRecord :=
  let ec := aeadEncrypt convKey nonce plaintext
  let es := aeadEncrypt (senderSubkey convKey) nonce [sigPub idn.signPriv]
  { timestamp := ts
    encrypted_sender := es
    encrypted_content := ec
    nonce := nonce
    signature := signDigest idn.signPriv (canonicalDigest ts ec es nonce) }

/-- Per-record codec failure (spec §7 `DecryptionFailed`). -/
inductive CodecError where
  | decryptionFailed
deriving DecidableEq

/-- Modelled from the spec: `decrypt_and_verify(record,
conversation_key, counterpart_signing_public)` (spec §4.4).  Both AEAD
fields are decrypted (failure of either authentication is
`DecryptionFailed`); the signature is then verified against the
*recovered* sender's signing public key (spec §4.4 step 2), and the
plaintext is returned together with the recovered sender and the
`verified` flag — unverifiable content is returned, not hidden. -/
def decrypt_and_verify (r : MessageRecord) (convKey : Nat)
    (_counterpartSigningPub : Nat) : Except CodecError (Bytes × Nat × Bool) :=
  match aeadDecrypt (senderSubkey convKey) r.nonce r.encrypted_sender,
        aeadDecrypt convKey r.nonce r.encrypted_content with
  | some senderBytes, some content =>
      match senderBytes with
      | [sender] =>
          let d := canonicalDigest r.timestamp r.encrypted_content
            r.encrypted_sender r.nonce
          Except.ok (content, sender, verifySig sender r.signature d)
      | _ => Except.error CodecError.decryptionFailed
  | _, _ => Except.error CodecError.decryptionFailed

/-! ## Reconciler (spec §4.6)

Modelled from the spec: the read-side reconciliation lives in the
missing Rust core.  Raw records fetched from both parties' storage are
decrypted (AEAD failures silently dropped), deduplicated by
(timestamp, nonce), sorted by timestamp with ties broken by nonce byte
order, tagged `is_own_message`, and returned with the per-record
`verified` flag. -/

/-- One decrypted conversation entry: the projection the Reconciler
returns (spec §4.6 step 6), together with the nonce it was
deduplicated and tie-broken on. -/
structure DecMsg where
  content : Bytes
  timestamp : Nat
  nonce : Bytes
  sender : Nat
  is_own_message : Bool
  verified : Bool
deriving DecidableEq

/-- Modelled from the spec: decrypt and classify one raw record (spec
§4.6 steps 2 and 5); records failing AEAD authentication yield `none`
and are dropped, records with an invalid signature are kept with
`verified = false`. -/
def decryptRecord (localPub cpSigningPub convKey : Nat)
    (r : MessageRecord) : Option DecMsg :=
  match decrypt_and_verify r convKey cpSigningPub with
  | Except.ok (content, sender, v) =>
      some { content := content
             timestamp := r.timestamp
             nonce := r.nonce
             sender := sender
             is_own_message := decide (sender = localPub)
             verified := v }
  | Except.error _ => none

/-- The deduplication key of a decrypted record (spec §4.6 step 3). -/
def msgKey (m : DecMsg) : Nat × Bytes := (m.timestamp, m.nonce)

/-- Modelled from the spec: keep-first deduplication by key, carrying
the set of keys already seen. -/
def dedupGo (seen : List (Nat × Bytes)) : List DecMsg → List DecMsg
  | [] => []
  | x :: xs =>
      if msgKey x ∈ seen then dedupGo seen xs
      else x :: dedupGo (msgKey x :: seen) xs

/-- Modelled from the spec: deduplicate a decrypted record list by
(timestamp, nonce) (spec §4.6 step 3). -/
def dedupByKey (l : List DecMsg) : List DecMsg := dedupGo [] l

/-- Lexicographic byte order on byte strings, used to break timestamp
ties deterministically (spec §4.6 step 4). -/
def bytesLe : Bytes → Bytes → Bool
  | [], _ => true
  | _ :: _, [] => false
  | a :: as, b :: bs =>
      if a < b then true else if a = b then bytesLe as bs else false

/-- The Reconciler's output order: timestamp ascending, ties broken by
nonce byte order. -/
def recLeB (x y : DecMsg) : Bool :=
  if x.timestamp < y.timestamp then true
  else if x.timestamp = y.timestamp then bytesLe x.nonce y.nonce
  else false

/-- `recLeB` as a relation, for `List.Sorted`. -/
def recLe (x y : DecMsg) : Prop := recLeB x y = true

instance : DecidableRel recLe := fun x y =>
  inferInstanceAs (Decidable (recLeB x y = true))

/-- Modelled from the spec: one Reconciler run over an already-fetched
raw record list: decrypt, drop AEAD failures, deduplicate by
(timestamp, nonce), and sort by timestamp with nonce tie-break (spec
§4.6 steps 2-6).  A pure function of the fetched input. -/
def reconcile (localPub cpSigningPub convKey : Nat)
    (raws : List MessageRecord) : List DecMsg :=
  List.insertionSort recLe
    (dedupByKey (raws.filterMap (decryptRecord localPub cpSigningPub convKey)))

/-! ## get_conversation and the caller's degraded view (spec §4.6, §6) -/

/-- Failure of a whole conversation read (spec §7). -/
inductive ConvError where
  | conversationUnavailable
deriving DecidableEq

/-- Modelled from the spec: `get_conversation` over the two
independently fetched sides; `none` models a failed fetch from that
side.  One failed side degrades to a partial conversation, both sides
failing surfaces `ConversationUnavailable` (spec §4.6 steps 1 and
failure semantics). -/
def getConversation (localPub cpSigningPub convKey : Nat)
    (localFetch counterpartFetch : Option (List MessageRecord)) :
    Except ConvError (List DecMsg) :=
  match localFetch, counterpartFetch with
  | none, none => Except.error ConvError.conversationUnavailable
  | some l, none => Except.ok (reconcile localPub cpSigningPub convKey l)
  | none, some c => Except.ok (reconcile localPub cpSigningPub convKey c)
  | some l, some c =>
      Except.ok (reconcile localPub cpSigningPub convKey (l ++ c))

/-- Embedded from `src/main.js` `loadConversation` (error path, lines
1631-1640): what the caller displays after a read, given the backend
result and the cached projection.  On backend failure, a nonempty cache
keeps being shown (`none` = the view is left as it was, not blanked). -/
def loadConversationView {α : Type} (backend : Except ConvError (List α))
    (cache : Option (List α)) : Option (List α) :=
  match backend with
  | Except.ok msgs => some msgs
  | Except.error _ =>
      match cache with
      | some c => if 0 < c.length then some c else none
      | none => none

/-! ## get_new_messages (spec §6, §9)

Modelled from the spec: `get_new_messages(local_identity,
known_counterparts, since_cursor_per_counterpart)`.  The backend is not
in the sources; per the spec it is a pull operation whose cursors are
caller-held arguments, so the model is a pure function of the local
identity, the counterpart set, the cursor map and the fetched records —
the core keeps no cursor state between calls. -/

/-- Modelled from the spec: return, per known counterpart, the
reconciled records whose timestamp is strictly newer than the
caller-supplied cursor for that counterpart. -/
def getNewMessages (localSignPub localAgreePriv : Nat)
    (counterparts : List Nat) (cursor : Nat → Nat)
    (fetched : Nat → List MessageRecord) : List (Nat × DecMsg) :=
  counterparts.flatMap (fun cp =>
    ((reconcile localSignPub cp (derive_conversation_key localAgreePriv cp)
        (fetched cp)).filter
      (fun m => decide (cursor cp < m.timestamp))).map (fun m => (cp, m)))

/-! ## Persisted record format (README "Storage Format")

Embedded from the README (`src/unnamed/part_001`, lines 138-147), the
only statement of the persisted JSON format in the sources: records are
stored as JSON objects with the fields `timestamp` (integer),
`encrypted_sender`, `encrypted_content` and `signature_bytes` (byte
arrays). -/

/-- A JSON value as used by the persisted record format. -/
inductive JsonVal where
  | num (n : Nat)
  | arr (bs : Bytes)
deriving DecidableEq

/-- A record as persisted to a homeserver, per the README's "Storage
Format" section. -/
structure StoredRecord where
  timestamp : Nat
  encrypted_sender : Bytes
  encrypted_content : Bytes
  signature_bytes : Bytes
deriving DecidableEq

/-- The write path: serialize a stored record to its JSON object
(field/value list), as documented in the README. -/
def serializeStored (r : StoredRecord) : List (String × JsonVal) :=
  [("timestamp", JsonVal.num r.timestamp),
   ("encrypted_sender", JsonVal.arr r.encrypted_sender),
   ("encrypted_content", JsonVal.arr r.encrypted_content),
   ("signature_bytes", JsonVal.arr r.signature_bytes)]

/-- The read path: parse a JSON object back into a stored record,
looking up exactly the README's four fields. -/
def parseStored (kvs : List (String × JsonVal)) : Option StoredRecord :=
  match kvs.lookup "timestamp", kvs.lookup "encrypted_sender",
        kvs.lookup "encrypted_content", kvs.lookup "signature_bytes" with
  | some (JsonVal.num t), some (JsonVal.arr es),
    some (JsonVal.arr ec), some (JsonVal.arr sb) => some ⟨t, es, ec, sb⟩
  | _, _, _, _ => none

/-! ## Frontend state (embedded from `src/main.js`)

The embedded functions model the signed-in application state: the
contacts `Map` (an insertion-ordered association list, as a JS `Map`
is), the persisted contacts entry in `localStorage`, the per-contact
message caches, the two input fields, and the list of backend
`send_message` invocations issued so far. -/

/-- JS strings. -/
abbrev Str := List Char

/-- Whitespace as removed by JS `String.prototype.trim`. -/
def isJsWhitespace (c : Char) : Bool :=
  decide (c = ' ' ∨ c = '\t' ∨ c = '\n' ∨ c = '\r')

/-- Embedded JS `trim`: strip whitespace from both ends. -/
def jsTrim (s : Str) : Str :=
  ((s.dropWhile isJsWhitespace).reverse.dropWhile isJsWhitespace).reverse

/-- One contact entry (`src/main.js` `addContact`, lines 1131-1138). -/
structure Contact where
  public_key : Str
  name : Option Str
  last_message : Option Str
  last_message_time : Option Nat
  last_read_time : Nat
  unread_count : Nat
deriving DecidableEq

/-- One cached message object (`src/main.js` `sendMessage` optimistic
message, lines 1716-1722). -/
structure CachedMsg where
  sender : Str
  content : Str
  timestamp : Nat
  verified : Bool
  is_own_message : Bool
deriving DecidableEq

/-- The signed-in frontend state relevant to `addContact` and
`sendMessage`. -/
structure AppState where
  currentUserPub : Str
  currentContact : Option Str
  newContactInput : Str
  messageInput : Str
  contacts : List (Str × Contact)
  contactsStorage : Option (List (Str × Contact))
  messageCache : List (Str × List CachedMsg)
  backendSends : List (Str × Str)
deriving DecidableEq

/-- Embedded `contacts.has(pubkey)` on the association-list model. -/
def hasKey (m : List (Str × Contact)) (k : Str) : Bool :=
  m.any (fun p => decide (p.1 = k))

/-- Embedded from `src/main.js` `saveContacts` (lines 1466-1473):
persist the contacts map to the per-account `localStorage` entry. -/
def saveContacts (st : AppState) : AppState :=
  { st with contactsStorage := some st.contacts }

/-- Embedded from `src/main.js` `addContact` (lines 1121-1148): trim
the input; return untouched on empty input; return untouched (after an
alert) when the key is already a contact; otherwise insert a fresh
contact entry, persist, and clear the input field. -/
def addContact (st : AppState) : AppState :=
  let pubkey := jsTrim st.newContactInput
  if pubkey = [] then st
  else if hasKey st.contacts pubkey then st
  else
    let fresh : Contact :=
      { public_key := pubkey, name := none, last_message := none,
        last_message_time := none, last_read_time := 0, unread_count := 0 }
    let st1 := { st with contacts := st.contacts ++ [(pubkey, fresh)] }
    let st2 := saveContacts st1
    { st2 with newContactInput := [] }

/-- Embedded from `src/main.js` (lines 1737-1739): truncate a message
preview to 30 characters. -/
def truncatePreview (s : Str) : Str :=
  if 30 < s.length then s.take 30 ++ ['.', '.', '.'] else s

/-- Embedded from `src/main.js` `addMessageToCache` (lines 1424-1449):
append to an existing conversation cache or create a fresh one. -/
def addMessageToCache (cache : List (Str × List CachedMsg)) (k : Str)
    (m : CachedMsg) : List (Str × List CachedMsg) :=
  if cache.any (fun p => decide (p.1 = k)) then
    cache.map (fun p => if p.1 = k then (p.1, p.2 ++ [m]) else p)
  else cache ++ [(k, [m])]

/-- Embedded from `src/main.js` `sendMessage` (lines 1735-1743): update
the contact's last-message preview and time. -/
def updateContactLast (contacts : List (Str × Contact)) (k : Str)
    (content : Str) (now : Nat) : List (Str × Contact) :=
  contacts.map (fun p =>
    if p.1 = k then
      (p.1, { p.2 with last_message := some (truncatePreview content),
                       last_message_time := some now })
    else p)

/-- Embedded from `src/main.js` `sendMessage` (lines 1709-1777): guard
on a selected contact and non-whitespace content, then clear the input,
add the optimistic message to the cache, update the contact preview,
persist contacts, and invoke the backend `send_message`. -/
def sendMessage (now : Nat) (st : AppState) : AppState :=
  match st.currentContact with
  | none => st
  | some cc =>
      let content := jsTrim st.messageInput
      if content = [] then st
      else
        let optimistic : CachedMsg :=
          { sender := st.currentUserPub, content := content,
            timestamp := now, verified := true, is_own_message := true }
        let st1 := { st with messageInput := [] }
        let newCache := addMessageToCache st1.messageCache cc optimistic
        let st2 := { st1 with messageCache := newCache }
        let updated := updateContactLast st2.contacts cc content now
        let st3 :=
          if hasKey st2.contacts cc then
            saveContacts { st2 with contacts := updated }
          else st2
        { st3 with backendSends := st3.backendSends ++ [(cc, content)] }

/-- Concrete record used by the C4 witness: AEAD decryptable under
conversation key 5, but signed with the wrong signing key. -/
def sampleBadRecord : MessageRecord :=
  { timestamp := 7
    encrypted_sender := ⟨30, [1], [7]⟩
    encrypted_content := ⟨5, [1], [10]⟩
    nonce := [1]
    signature := ⟨4, [9, 9]⟩ }

/-- Concrete record used by the C5 witness. -/
def sampleRecord : MessageRecord :=
  { timestamp := 3
    encrypted_sender := ⟨30, [2], [7]⟩
    encrypted_content := ⟨5, [2], [11]⟩
    nonce := [2]
    signature := ⟨3, [1]⟩ }

/-- Concrete cached projection used by the C7 witness. -/
def sampleCachedMsg : DecMsg :=
  { content := [1], timestamp := 4, nonce := [], sender := 0,
    is_own_message := false, verified := true }

/-- Concrete contact entry used by the frontend witnesses. -/
def sampleContact : Contact :=
  { public_key := ['a'], name := none, last_message := none,
    last_message_time := none, last_read_time := 0, unread_count := 0 }

/-- Concrete signed-in frontend state used by the frontend witnesses:
no contact selected, empty message input, input field holding (with a
leading blank) the key of an already-present contact. -/
def sampleState : AppState :=
  { currentUserPub := ['u'], currentContact := none,
    newContactInput := [' ', 'a'], messageInput := [],
    contacts := [(['a'], sampleContact)], contactsStorage := none,
    messageCache := [], backendSends := [] }

end Pubky

namespace Pubky

/-! ## Order instances and helper lemmas -/

theorem bytesLe_total : ∀ a b : Bytes, bytesLe a b = true ∨ bytesLe b a = true
  | [], _ => Or.inl rfl
  | _ :: _, [] => Or.inr rfl
  | a :: as, b :: bs => by
    rcases Nat.lt_trichotomy a b with h | h | h
    · exact Or.inl (by simp [bytesLe, h])
    · subst h
      rcases bytesLe_total as bs with ih | ih
      · exact Or.inl (by simp [bytesLe, ih])
      · exact Or.inr (by simp [bytesLe, ih])
    · exact Or.inr (by simp [bytesLe, h])

theorem bytesLe_trans : ∀ a b c : Bytes,
    bytesLe a b = true → bytesLe b c = true → bytesLe a c = true
  | [], _, _, _, _ => rfl
  | _ :: _, [], _, hab, _ => by simp [bytesLe] at hab
  | _ :: _, _ :: _, [], _, hbc => by simp [bytesLe] at hbc
  | a :: as, b :: bs, c :: cs, hab, hbc => by
    by_cases h1 : a < b
    · by_cases h2 : b < c
      · simp [bytesLe, Nat.lt_trans h1 h2]
      · by_cases h3 : b = c
        · subst h3; simp [bytesLe, h1]
        · simp [bytesLe, h2, h3] at hbc
    · by_cases h3 : a = b
      · subst h3
        simp only [bytesLe, h1, if_false, if_pos rfl] at hab
        by_cases h2 : a < c
        · simp [bytesLe, h2]
        · by_cases h4 : a = c
          · subst h4
            simp only [bytesLe, h2, if_false, if_pos rfl] at hbc ⊢
            exact bytesLe_trans as bs cs hab hbc
          · simp [bytesLe, h2, h4] at hbc
      · simp [bytesLe, h1, h3] at hab

theorem recLe_iff (x y : DecMsg) :
    recLe x y ↔ (x.timestamp < y.timestamp ∨
      (x.timestamp = y.timestamp ∧ bytesLe x.nonce y.nonce = true)) := by
  unfold recLe recLeB
  split_ifs with h1 h2
  · simp [h1]
  · simp [h1, h2]
  · simp [h1, h2]

instance : IsTotal DecMsg recLe := by
  constructor
  intro a b
  rw [recLe_iff, recLe_iff]
  rcases Nat.lt_trichotomy a.timestamp b.timestamp with h | h | h
  · exact Or.inl (Or.inl h)
  · rcases bytesLe_total a.nonce b.nonce with hb | hb
    · exact Or.inl (Or.inr ⟨h, hb⟩)
    · exact Or.inr (Or.inr ⟨h.symm, hb⟩)
  · exact Or.inr (Or.inl h)

instance : IsTrans DecMsg recLe := by
  constructor
  intro a b c hab hbc
  rw [recLe_iff] at hab hbc ⊢
  rcases hab with h1 | ⟨h1, hn1⟩
  · rcases hbc with h2 | ⟨h2, hn2⟩
    · exact Or.inl (Nat.lt_trans h1 h2)
    · exact Or.inl (by omega)
  · rcases hbc with h2 | ⟨h2, hn2⟩
    · exact Or.inl (by omega)
    · exact Or.inr ⟨h1.trans h2, bytesLe_trans _ _ _ hn1 hn2⟩

theorem dedupGo_append_dup (m : DecMsg) :
    ∀ (l : List DecMsg) (seen : List (Nat × Bytes)),
      (msgKey m ∈ seen ∨ ∃ y ∈ l, msgKey y = msgKey m) →
      dedupGo seen (l ++ [m]) = dedupGo seen l
  | [], seen, h => by
    rcases h with h | ⟨y, hy, _⟩
    · simp [dedupGo, h]
    · simp at hy
  | x :: xs, seen, h => by
    by_cases hx : msgKey x ∈ seen
    · simp only [List.cons_append, dedupGo, hx, if_true]
      apply dedupGo_append_dup m xs seen
      rcases h with h | ⟨y, hy, hk⟩
      · exact Or.inl h
      · rcases List.mem_cons.mp hy with rfl | hy
        · exact Or.inl (hk ▸ hx)
        · exact Or.inr ⟨y, hy, hk⟩
    · simp only [List.cons_append, dedupGo, hx, if_false]
      congr 1
      apply dedupGo_append_dup m xs (msgKey x :: seen)
      rcases h with h | ⟨y, hy, hk⟩
      · exact Or.inl (List.mem_cons_of_mem _ h)
      · rcases List.mem_cons.mp hy with rfl | hy
        · exact Or.inl (hk ▸ List.mem_cons_self _ _)
        · exact Or.inr ⟨y, hy, hk⟩

/-! ## Claims -/

/-- C1: decrypt-then-verify is a left inverse of encrypt-then-sign: for
every plaintext, conversation key, sender identity, nonce, timestamp
and counterpart key, `decrypt_and_verify` applied to the record built
by `encrypt_and_sign` returns exactly the original plaintext, the
sender's public identity, and `verified = true`. -/
theorem roundTrip_decrypt_encrypt (idn : Identity) (convKey : Nat)
    (plaintext : Bytes) (nonce : Bytes) (ts : Nat) (cpPub : Nat) :
    decrypt_and_verify (encrypt_and_sign idn convKey plaintext nonce ts)
      convKey cpPub =
      Except.ok (plaintext, sigPub idn.signPriv, true) := by
  simp [decrypt_and_verify, encrypt_and_sign, aeadDecrypt, aeadEncrypt,
    verifySig, signDigest]

/-- C2: ECDH symmetry of the conversation key: deriving it from A's
private scalar and B's public key gives the same key as deriving it
from B's private scalar and A's public key, for every pair of private
scalars — both sides compute the identical key with no exchange. -/
theorem derive_conversation_key_symm (a b : Nat) :
    derive_conversation_key a (agreePub b) =
      derive_conversation_key b (agreePub a) := by
  unfold derive_conversation_key ecdh agreePub
  have h : ∀ x y : Nat,
      (basePoint ^ x % curvePrime) ^ y % curvePrime =
        basePoint ^ (x * y) % curvePrime := by
    intro x y
    rw [← Nat.pow_mod, ← pow_mul]
  rw [h b a, h a b, Nat.mul_comm]

/-- C3 (counterexample): the claim that every persisted record is a
JSON object with exactly the five fields `timestamp`,
`encrypted_sender`, `encrypted_content`, `nonce`, `signature` fails on
the repository's documented storage format: a concrete serialized
record has the key list `timestamp, encrypted_sender,
encrypted_content, signature_bytes` instead. -/
theorem storedRecord_fields_ne_claimed :
    (serializeStored ⟨0, [], [], []⟩).map Prod.fst ≠
      ["timestamp", "encrypted_sender", "encrypted_content", "nonce",
       "signature"] := by
  decide

/-- C3 (amended): every record persisted to storage is a JSON object
containing exactly the four fields integer `timestamp` and byte-arrays
`encrypted_sender`, `encrypted_content`, `signature_bytes` (no
separate `nonce` field), and this format round-trips: the read path
parses exactly what the write path serializes. -/
theorem storedRecord_format (r : StoredRecord) :
    (serializeStored r).map Prod.fst =
        ["timestamp", "encrypted_sender", "encrypted_content",
         "signature_bytes"] ∧
      parseStored (serializeStored r) = some r :=
  ⟨rfl, rfl⟩

/-- C4: a record whose AEAD decryptions succeed but whose signature
fails to verify against the recovered sender's signing public key is
returned by `decrypt_and_verify` with its decrypted plaintext and
`verified = false`; the Reconciler keeps it (it is not dropped), and
`get_conversation` surfaces the per-record `verified` flag to the
caller. -/
theorem sigInvalid_kept_unverified (lp cp convKey : Nat) (r : MessageRecord)
    (pt : Bytes) (sender : Nat)
    (hs : aeadDecrypt (senderSubkey convKey) r.nonce r.encrypted_sender =
      some [sender])
    (hc : aeadDecrypt convKey r.nonce r.encrypted_content = some pt)
    (hv : verifySig sender r.signature
      (canonicalDigest r.timestamp r.encrypted_content r.encrypted_sender
        r.nonce) = false) :
    decrypt_and_verify r convKey cp = Except.ok (pt, sender, false) ∧
      reconcile lp cp convKey [r] =
        [{ content := pt, timestamp := r.timestamp, nonce := r.nonce,
           sender := sender, is_own_message := decide (sender = lp),
           verified := false }] ∧
      getConversation lp cp convKey (some [r]) none =
        Except.ok
          [{ content := pt, timestamp := r.timestamp, nonce := r.nonce,
             sender := sender, is_own_message := decide (sender = lp),
             verified := false }] := by
  have hd : decrypt_and_verify r convKey cp = Except.ok (pt, sender, false) := by
    simp only [decrypt_and_verify, hs, hc, hv]
  have hrec : reconcile lp cp convKey [r] =
      [{ content := pt, timestamp := r.timestamp, nonce := r.nonce,
         sender := sender, is_own_message := decide (sender = lp),
         verified := false }] := by
    simp [reconcile, decryptRecord, hd, dedupByKey, dedupGo]
  exact ⟨hd, hrec, by simp [getConversation, hrec]⟩

/-- C4 witness: a concrete record that decrypts under conversation key
5 but carries a signature made with the wrong signing key is kept with
`verified = false` end to end. -/
theorem sigInvalid_kept_unverified_witness :
    decrypt_and_verify sampleBadRecord 5 0 = Except.ok ([10], 7, false) ∧
      reconcile 0 0 5 [sampleBadRecord] =
        [{ content := [10], timestamp := 7, nonce := [1], sender := 7,
           is_own_message := false, verified := false }] ∧
      getConversation 0 0 5 (some [sampleBadRecord]) none =
        Except.ok
          [{ content := [10], timestamp := 7, nonce := [1], sender := 7,
             is_own_message := false, verified := false }] := by
  simpa using sigInvalid_kept_unverified 0 0 5 sampleBadRecord [10] 7
    (by decide) (by decide) (by decide)

/-- C5: feeding the Reconciler the same raw record twice yields the
same result as feeding it once: augmenting the fetched input with a
duplicate of any element it already contains leaves the reconciled
conversation unchanged (deduplication by (timestamp, nonce)). -/
theorem reconcile_dedup_idem (lp cp k : Nat) (raws : List MessageRecord)
    (r : MessageRecord) (hr : r ∈ raws) :
    reconcile lp cp k (raws ++ [r]) = reconcile lp cp k raws := by
  unfold reconcile
  rw [List.filterMap_append]
  cases h : decryptRecord lp cp k r with
  | none => simp [h]
  | some m =>
      have hm : m ∈ raws.filterMap (decryptRecord lp cp k) :=
        List.mem_filterMap.mpr ⟨r, hr, h⟩
      have h1 : List.filterMap (decryptRecord lp cp k) [r] = [m] := by
        simp [h]
      rw [h1]
      unfold dedupByKey
      rw [dedupGo_append_dup m _ [] (Or.inr ⟨m, hm, rfl⟩)]

/-- C5 witness: duplicating a concrete fetched record does not change
the reconciled conversation. -/
theorem reconcile_dedup_idem_witness :
    reconcile 0 0 5 ([sampleRecord] ++ [sampleRecord]) =
      reconcile 0 0 5 [sampleRecord] :=
  reconcile_dedup_idem 0 0 5 [sampleRecord] sampleRecord (by decide)

/-- C6: the Reconciler's output is sorted: along the output list the
timestamps ascend, and records with equal timestamps are ordered by
the byte order of their nonces (`recLe`); the output is a pure
function of the fetched input, so this order is deterministic. -/
theorem reconcile_sorted (lp cp k : Nat) (raws : List MessageRecord) :
    List.Sorted recLe (reconcile lp cp k raws) :=
  List.sorted_insertionSort recLe _

/-- C7: if exactly one side's fetch fails, `get_conversation` returns
the reconciled records of the reachable side rather than an error;
only when both fetches fail does it surface `ConversationUnavailable`,
and in that case the caller keeps showing a nonempty cached projection
instead of blanking the view. -/
theorem getConversation_partial_availability (lp cp k : Nat)
    (recs : List MessageRecord) (e : ConvError) (cache : List DecMsg) :
    getConversation lp cp k (some recs) none =
        Except.ok (reconcile lp cp k recs) ∧
      getConversation lp cp k none (some recs) =
        Except.ok (reconcile lp cp k recs) ∧
      getConversation lp cp k none none =
        Except.error ConvError.conversationUnavailable ∧
      (cache ≠ [] →
        loadConversationView (Except.error e) (some cache) = some cache) := by
  refine ⟨rfl, rfl, rfl, fun h => ?_⟩
  simp [loadConversationView, List.length_pos.mpr h]

/-- C7 witness: with both sides failed the read surfaces
`ConversationUnavailable`, and the caller keeps a concrete nonempty
cached projection on a failed read. -/
theorem getConversation_partial_availability_witness :
    getConversation 0 0 0 none none =
        Except.error ConvError.conversationUnavailable ∧
      loadConversationView
        (Except.error (α := List DecMsg) ConvError.conversationUnavailable)
        (some [sampleCachedMsg]) = some [sampleCachedMsg] := by
  refine ⟨(getConversation_partial_availability 0 0 0 []
      ConvError.conversationUnavailable [sampleCachedMsg]).2.2.1, ?_⟩
  exact (getConversation_partial_availability 0 0 0 []
      ConvError.conversationUnavailable [sampleCachedMsg]).2.2.2 (by decide)

/-- C8: `get_new_messages` is a pure function of the local identity,
the known counterparts, the caller-supplied per-counterpart cursors
and the fetched records: a pair (counterpart, record) is returned
exactly when the counterpart is known, the record is part of that
counterpart's reconciled conversation, and its timestamp is strictly
newer than the caller's cursor for that counterpart — the core holds
no cursor state of its own. -/
theorem getNewMessages_cursor_spec (lsp lap : Nat) (cps : List Nat)
    (cursor : Nat → Nat) (fetched : Nat → List MessageRecord)
    (cp : Nat) (m : DecMsg) :
    (cp, m) ∈ getNewMessages lsp lap cps cursor fetched ↔
      (cp ∈ cps ∧
        m ∈ reconcile lsp cp (derive_conversation_key lap cp) (fetched cp) ∧
        cursor cp < m.timestamp) := by
  simp only [getNewMessages, List.mem_flatMap, List.mem_map, List.mem_filter,
    decide_eq_true_eq, Prod.mk.injEq]
  constructor
  · rintro ⟨a, ha, b, ⟨hb, hcur⟩, rfl, rfl⟩
    exact ⟨ha, hb, hcur⟩
  · rintro ⟨ha, hm, hcur⟩
    exact ⟨cp, ha, m, ⟨hm, hcur⟩, rfl, rfl⟩

/-- Characterization of the embedded `contacts.has`. -/
theorem hasKey_iff (m : List (Str × Contact)) (k : Str) :
    hasKey m k = true ↔ k ∈ m.map Prod.fst := by
  induction m with
  | nil => simp [hasKey]
  | cons p ps ih =>
      simp only [hasKey, List.any_cons, Bool.or_eq_true, decide_eq_true_eq,
        List.map_cons, List.mem_cons]
      constructor
      · rintro (h | h)
        · exact Or.inl h.symm
        · exact Or.inr (ih.mp h)
      · rintro (h | h)
        · exact Or.inl h.symm
        · exact Or.inr (ih.mpr h)

/-- C9: calling `addContact` while the (trimmed) input key is already
present in the contacts map leaves the whole application state — the
contacts map and the persisted contacts storage included — unchanged;
and `addContact` preserves key-uniqueness of the contacts map, so the
collection never acquires two entries for one public key. -/
theorem addContact_duplicate_noop (st : AppState) :
    (hasKey st.contacts (jsTrim st.newContactInput) = true →
        addContact st = st) ∧
      ((st.contacts.map Prod.fst).Nodup →
        ((addContact st).contacts.map Prod.fst).Nodup) := by
  constructor
  · intro h
    unfold addContact
    by_cases he : jsTrim st.newContactInput = []
    · simp [he]
    · simp [he, h]
  · intro hnd
    unfold addContact
    by_cases he : jsTrim st.newContactInput = []
    · simpa [he] using hnd
    · by_cases hk : hasKey st.contacts (jsTrim st.newContactInput) = true
      · simpa [he, hk] using hnd
      · have hnotin : jsTrim st.newContactInput ∉ st.contacts.map Prod.fst :=
          fun hmem => hk ((hasKey_iff _ _).mpr hmem)
        have hgoal :
            ((st.contacts.map Prod.fst) ++ [jsTrim st.newContactInput]).Nodup := by
          refine List.Nodup.append hnd (List.nodup_singleton _) ?_
          intro a ha hb
          rw [List.mem_singleton] at hb
          subst hb
          exact hnotin ha
        simpa [he, hk, saveContacts] using hgoal

/-- C9 witness: adding the already-present key `"a"` (with a leading
blank that trimming removes) leaves the concrete state unchanged and
keeps the contact keys duplicate-free. -/
theorem addContact_duplicate_noop_witness :
    addContact sampleState = sampleState ∧
      ((addContact sampleState).contacts.map Prod.fst).Nodup := by
  exact ⟨(addContact_duplicate_noop sampleState).1 (by decide),
    (addContact_duplicate_noop sampleState).2 (by decide)⟩

/-- C10: when no contact is selected or the message input trims to the
empty string, `sendMessage` returns the state unchanged — in
particular no backend `send_message` call is recorded and neither the
message cache nor the contact state is modified. -/
theorem sendMessage_guard (now : Nat) (st : AppState)
    (h : st.currentContact = none ∨ jsTrim st.messageInput = []) :
    sendMessage now st = st := by
  rcases h with h | h
  · simp [sendMessage, h]
  · cases hc : st.currentContact with
    | none => simp [sendMessage, hc]
    | some cc => simp [sendMessage, hc, h]

/-- C10 witness: with no contact selected, `sendMessage` leaves the
concrete state untouched. -/
theorem sendMessage_guard_witness : sendMessage 0 sampleState = sampleState :=
  sendMessage_guard 0 sampleState (Or.inl rfl)

end Pubky
